import Mathlib

/-!
Verification of the prompt-to-graph pipeline of the Purdue AI Career Mapper
(`src/app.py`).  The Python source is shallowly embedded: every definition
below mirrors a concrete piece of the script.

Embedding conventions:
* Python strings are Lean `String`s; `len` is `String.length` (both count
  unicode code points).
* `json.loads` is embedded as `jsonLoads`, a fuel-based recursive-descent
  parser for the JSON grammar accepted by CPython's strict decoder
  (including the `NaN` / `Infinity` / `-Infinity` extensions).  Numbers are
  kept exactly as mantissa/exponent pairs, so float rounding and overflow of
  extreme literals are idealized away; duplicate object keys are kept in
  order and looked up with last-wins semantics, as a Python dict would
  resolve them.  Lone surrogate escapes (representable in Python strings but
  not as unicode scalar values) are replaced by the NUL character.
* `str.replace` / `str.strip` are embedded as `pyReplace` / `pyStrip`
  (`pyStrip` covers the whitespace characters relevant to ASCII and Latin-1
  text; the script only ever strips model output).
* `st.session_state` is the structure `SessionState`; a fetch cycle is the
  function `fetchStep`, parameterized by a `FetchOutcome` describing the
  behaviour of the external completion service on that call.
* The `font` attribute passed to every graph node is the same constant
  dictionary for all nodes and is omitted from the `GNode` record.
-/

/-! ## Generic character-list utilities -/

def listStartsWith : List Char → List Char → Bool
  | [], _ => true
  | _ :: _, [] => false
  | p :: ps, c :: cs => p = c && listStartsWith ps cs

/-- Number of positions of `s` at which `pat` occurs (all positions, not just
non-overlapping ones). -/
def countOcc (pat : List Char) : List Char → Nat
  | [] => 0
  | c :: cs =>
    if listStartsWith pat (c :: cs) then Nat.succ (countOcc pat cs) else countOcc pat cs

/-- `true` iff some nonempty suffix of `s` that is shorter than `pat` is a
prefix of `pat` (an occurrence of `pat` could "hang over" the end of `s`). -/
def hangingMatch (pat : List Char) : List Char → Bool
  | [] => false
  | c :: cs =>
    (decide ((c :: cs).length < pat.length) && listStartsWith (c :: cs) pat)
      || hangingMatch pat cs

def strContains (s t : String) : Prop :=
  ∃ a b : String, s = a ++ t ++ b

/-! ## Embedding of `str.replace` and `str.strip` -/

/-- Python's `str.replace` scan: move left to right, at each position replace
the leftmost occurrence of `pat` and continue after it.  The first `Nat`
argument counts characters of an already-replaced occurrence still to be
skipped, which keeps the recursion structural in the scanned list. -/
def pyRepAux (pat rep : List Char) : Nat → List Char → List Char
  | _, [] => []
  | Nat.succ k, _ :: cs => pyRepAux pat rep k cs
  | 0, c :: cs =>
    if listStartsWith pat (c :: cs) then rep ++ pyRepAux pat rep (pat.length - 1) cs
    else c :: pyRepAux pat rep 0 cs

/-- Python `s.replace(pat, rep)`.  The script only calls it with nonempty
patterns; the empty-pattern case (interspersion in Python) is left as the
identity. -/
def pyReplace (s pat rep : String) : String :=
  if pat.data.isEmpty then s
  else ⟨pyRepAux pat.data rep.data 0 s.data⟩

/-- Whitespace characters removed by Python's `str.strip()` (the ASCII and
Latin-1 ones; the script strips model output around a JSON document). -/
def pyIsSpace (c : Char) : Bool :=
  c = ' ' || c = '\t' || c = '\n' || c = '\r' || c = '\x0b' || c = '\x0c'
    || c = '\x1c' || c = '\x1d' || c = '\x1e' || c = '\x1f' || c = '\x85' || c = '\xa0'

/-- Python `s.strip()`. -/
def pyStrip (s : String) : String :=
  ⟨((s.data.dropWhile pyIsSpace).reverse.dropWhile pyIsSpace).reverse⟩

/-! ## Embedding of `json.loads` -/

inductive JValue where
  | null
  | bool (b : Bool)
  | num (mant : Int) (ex : Int)
  | nan
  | inf (neg : Bool)
  | str (s : String)
  | arr (elems : List JValue)
  | obj (fields : List (String × JValue))

/-- JSON insignificant whitespace. -/
def jsonWs (c : Char) : Bool :=
  c = ' ' || c = '\t' || c = '\n' || c = '\r'

def skipWs : List Char → List Char
  | [] => []
  | c :: cs => if jsonWs c then skipWs cs else c :: cs

def hexVal (c : Char) : Option Nat :=
  if '0' ≤ c ∧ c ≤ '9' then some (c.toNat - 48)
  else if 'a' ≤ c ∧ c ≤ 'f' then some (c.toNat - 87)
  else if 'A' ≤ c ∧ c ≤ 'F' then some (c.toNat - 55)
  else none

def hex4 (h1 h2 h3 h4 : Char) : Option Nat := do
  let a ← hexVal h1
  let b ← hexVal h2
  let c ← hexVal h3
  let d ← hexVal h4
  pure (((a * 16 + b) * 16 + c) * 16 + d)

/-- A unicode scalar value for a code point; lone surrogates (allowed in
Python strings) are replaced by NUL. -/
def charOfCode (n : Nat) : Char := Char.ofNat n

/-- Body of a JSON string, after the opening quote: returns the decoded
content and the remainder after the closing quote.  Mirrors CPython's strict
`py_scanstring` (backslash escapes, `\uXXXX` with surrogate pairing,
unescaped control characters rejected).  Fuel bounds the scan; one unit per
consumed character suffices. -/
def parseStrBody : Nat → List Char → Option (List Char × List Char)
  | 0, _ => none
  | Nat.succ fuel, cs =>
    match cs with
    | [] => none
    | '"' :: rest => some ([], rest)
    | '\\' :: esc =>
      match esc with
      | '"' :: rest => (fun p => ('"' :: p.1, p.2)) <$> parseStrBody fuel rest
      | '\\' :: rest => (fun p => ('\\' :: p.1, p.2)) <$> parseStrBody fuel rest
      | '/' :: rest => (fun p => ('/' :: p.1, p.2)) <$> parseStrBody fuel rest
      | 'b' :: rest => (fun p => ('\x08' :: p.1, p.2)) <$> parseStrBody fuel rest
      | 'f' :: rest => (fun p => ('\x0c' :: p.1, p.2)) <$> parseStrBody fuel rest
      | 'n' :: rest => (fun p => ('\n' :: p.1, p.2)) <$> parseStrBody fuel rest
      | 'r' :: rest => (fun p => ('\r' :: p.1, p.2)) <$> parseStrBody fuel rest
      | 't' :: rest => (fun p => ('\t' :: p.1, p.2)) <$> parseStrBody fuel rest
      | 'u' :: h1 :: h2 :: h3 :: h4 :: rest =>
        match hex4 h1 h2 h3 h4 with
        | none => none
        | some n =>
          if 0xD800 ≤ n ∧ n ≤ 0xDBFF then
            match rest with
            | '\\' :: 'u' :: h5 :: h6 :: h7 :: h8 :: rest2 =>
              match hex4 h5 h6 h7 h8 with
              | none => none
              | some m =>
                if 0xDC00 ≤ m ∧ m ≤ 0xDFFF then
                  (fun p => (charOfCode (0x10000 + (n - 0xD800) * 0x400 + (m - 0xDC00)) :: p.1, p.2))
                    <$> parseStrBody fuel rest2
                else
                  (fun p => (charOfCode n :: p.1, p.2)) <$> parseStrBody fuel rest
            | _ => (fun p => (charOfCode n :: p.1, p.2)) <$> parseStrBody fuel rest
          else
            (fun p => (charOfCode n :: p.1, p.2)) <$> parseStrBody fuel rest
      | _ => none
    | c :: rest =>
      if c.toNat < 0x20 then none
      else (fun p => (c :: p.1, p.2)) <$> parseStrBody fuel rest

def takeDigits : List Char → List Char × List Char
  | [] => ([], [])
  | c :: cs =>
    if c.isDigit then
      let p := takeDigits cs
      (c :: p.1, p.2)
    else
      ([], c :: cs)

def digitsToNat (ds : List Char) : Nat :=
  ds.foldl (fun acc c => acc * 10 + (c.toNat - 48)) 0

/-- JSON number lexer, mirroring CPython's `NUMBER_RE`
(`-?(0|[1-9]\d*)(\.\d+)?([eE][-+]?\d+)?`); returns the exact value as
mantissa and decimal exponent, plus the unconsumed remainder.  Returns
`none` when no number starts here. -/
def parseNum (cs : List Char) : Option (JValue × List Char) :=
  let (neg, cs1) := match cs with
    | '-' :: rest => (true, rest)
    | _ => (false, cs)
  match cs1 with
  | c :: rest =>
    if ¬ c.isDigit then none
    else
      let (ip, cs2) :=
        if c = '0' then ([c], rest)
        else takeDigits (c :: rest)
      let (fp, cs3) := match cs2 with
        | '.' :: d :: ds =>
          if d.isDigit then
            let p := takeDigits (d :: ds)
            (p.1, p.2)
          else ([], cs2)
        | _ => ([], cs2)
      let (ex, cs4) : Int × List Char := match cs3 with
        | e :: t =>
          if e = 'e' ∨ e = 'E' then
            match t with
            | '+' :: d :: ds =>
              if d.isDigit then
                let p := takeDigits (d :: ds)
                ((digitsToNat p.1 : Int), p.2)
              else (0, cs3)
            | '-' :: d :: ds =>
              if d.isDigit then
                let p := takeDigits (d :: ds)
                (-(digitsToNat p.1 : Int), p.2)
              else (0, cs3)
            | d :: ds =>
              if d.isDigit then
                let p := takeDigits (d :: ds)
                ((digitsToNat p.1 : Int), p.2)
              else (0, cs3)
            | [] => (0, cs3)
          else (0, cs3)
        | [] => (0, cs3)
      let mantNat : Nat := digitsToNat ip * 10 ^ fp.length + digitsToNat fp
      let mant : Int := if neg then -(mantNat : Int) else (mantNat : Int)
      some (JValue.num mant (ex - (fp.length : Int)), cs4)
  | [] => none

mutual

def parseVal : Nat → List Char → Option (JValue × List Char)
  | 0, _ => none
  | Nat.succ fuel, cs =>
    match cs with
    | [] => none
    | '{' :: rest =>
      match skipWs rest with
      | '}' :: r => some (JValue.obj [], r)
      | r => parseMembers fuel r []
    | '[' :: rest =>
      match skipWs rest with
      | ']' :: r => some (JValue.arr [], r)
      | r => parseItems fuel r []
    | '"' :: rest =>
      (fun p => (JValue.str ⟨p.1⟩, p.2)) <$> parseStrBody (rest.length + 1) rest
    | 'n' :: 'u' :: 'l' :: 'l' :: r => some (JValue.null, r)
    | 't' :: 'r' :: 'u' :: 'e' :: r => some (JValue.bool true, r)
    | 'f' :: 'a' :: 'l' :: 's' :: 'e' :: r => some (JValue.bool false, r)
    | 'N' :: 'a' :: 'N' :: r => some (JValue.nan, r)
    | 'I' :: 'n' :: 'f' :: 'i' :: 'n' :: 'i' :: 't' :: 'y' :: r => some (JValue.inf false, r)
    | '-' :: 'I' :: 'n' :: 'f' :: 'i' :: 'n' :: 'i' :: 't' :: 'y' :: r => some (JValue.inf true, r)
    | _ => parseNum cs

def parseMembers : Nat → List Char → List (String × JValue) → Option (JValue × List Char)
  | 0, _, _ => none
  | Nat.succ fuel, cs, acc =>
    match cs with
    | '"' :: rest =>
      match parseStrBody (rest.length + 1) rest with
      | none => none
      | some (key, r1) =>
        match skipWs r1 with
        | ':' :: r2 =>
          match parseVal fuel (skipWs r2) with
          | none => none
          | some (v, r3) =>
            match skipWs r3 with
            | ',' :: r4 => parseMembers fuel (skipWs r4) (acc ++ [(⟨key⟩, v)])
            | '}' :: r4 => some (JValue.obj (acc ++ [(⟨key⟩, v)]), r4)
            | _ => none
        | _ => none
    | _ => none

def parseItems : Nat → List Char → List JValue → Option (JValue × List Char)
  | 0, _, _ => none
  | Nat.succ fuel, cs, acc =>
    match parseVal fuel cs with
    | none => none
    | some (v, r1) =>
      match skipWs r1 with
      | ',' :: r2 => parseItems fuel (skipWs r2) (acc ++ [v])
      | ']' :: r2 => some (JValue.arr (acc ++ [v]), r2)
      | _ => none

end

/-- Embedding of `json.loads`: parse one JSON document surrounded by optional
whitespace; fail on anything else (including trailing data).  Two fuel units
per character bound the mutual recursion (each recursive call consumes at
least one character per two calls). -/
def jsonLoads (s : String) : Option JValue :=
  let cs := skipWs s.data
  match parseVal (2 * cs.length + 2) cs with
  | some (v, rest) => if (skipWs rest).isEmpty then some v else none
  | none => none

/-- Python dict lookup on an in-order field list: the last binding of a key
wins, as repeated keys overwrite each other when the decoder builds the dict. -/
def dictGet : List (String × JValue) → String → Option JValue
  | [], _ => none
  | (k, v) :: rest, key =>
    match dictGet rest key with
    | some r => some r
    | none => if k = key then some v else none

def getField (j : JValue) (k : String) : Option JValue :=
  match j with
  | .obj fs => dictGet fs k
  | _ => none

def asStr : JValue → Option String
  | .str s => some s
  | _ => none

def asList : JValue → Option (List JValue)
  | .arr l => some l
  | _ => none

/-- Python truthiness (`if data:`) of a decoded JSON value.  A nonzero
mantissa is equivalent to a nonzero numeric value since the embedding keeps
numbers exact. -/
def JValue.isTruthy : JValue → Bool
  | .null => false
  | .bool b => b
  | .num m _ => m ≠ 0
  | .nan => true
  | .inf _ => true
  | .str s => ¬ s.isEmpty
  | .arr l => ¬ l.isEmpty
  | .obj l => ¬ l.isEmpty

/-! ## Fence stripping (`get_gemini_response`, line 139) -/

/-- `response.text.replace("\x60\x60\x60json", "").replace("\x60\x60\x60", "").strip()`. -/
def stripFences (s : String) : String :=
  pyStrip (pyReplace (pyReplace s "\x60\x60\x60json" "") "\x60\x60\x60" "")

/-- Line 140: `json.loads(clean_text)`, with any parse exception caught by the
surrounding handler (`None` is returned and an error is displayed). -/
def parseGraph (raw : String) : Option JValue :=
  jsonLoads (stripFences raw)

/-- Following the specification's words only (not the code): strip exactly one
leading code-fence marker (with optional `json` language tag) and exactly one
trailing marker, when present, and change nothing else. -/
def specFenceStrip (s : String) : String :=
  let d1 :=
    if listStartsWith ("\x60\x60\x60json".data) s.data then s.data.drop 7
    else if listStartsWith ("\x60\x60\x60".data) s.data then s.data.drop 3
    else s.data
  let d2 :=
    if listStartsWith (("\x60\x60\x60".data).reverse) d1.reverse then d1.take (d1.length - 3)
    else d1
  ⟨d2⟩

/-- Following the specification's words only: the parsed JSON has the required
fields `center_node.name`, `connections[].name` and `connections[].reason`. -/
def specHasRequiredFields (j : JValue) : Bool :=
  (match getField j "center_node" with
    | some c => (getField c "name").isSome
    | none => false)
  &&
  (match getField j "connections" with
    | some v =>
      match asList v with
      | some l => l.all fun c => (getField c "name").isSome && (getField c "reason").isSome
      | none => false
    | none => false)

/-! ## Prompt construction (`get_gemini_response`, lines 72-127)

The string literals below are the exact literal fragments of the Python
f-string `system_instruction` and of the two `program_context` blocks,
split at the interpolation points. -/

def policyContext : String :=
  "\n        DEGREE PROFILE: \x27AI Management & Policy\x27 Track.\n        - GRADUATE PERSONA: Strategic Leader, Governance Expert, Product Visionary.\n        - KEY STRENGTHS: Bridging the gap between technical teams and business goals, Ethics, Policy, Risk Management.\n        - AVOID: Do not suggest purely coding-heavy roles (like Core Developer) unless they have a strategic component.\n        "

def mlContext : String :=
  "\n        DEGREE PROFILE: \x27AI and Machine Learning\x27 Track.\n        - GRADUATE PERSONA: Technical Builder, Model Architect, Data Scientist.\n        - KEY STRENGTHS: Python, TensorFlow, NLP, Computer Vision, building and deploying models.\n        - AVOID: Do not suggest purely non-technical administrative roles.\n        "

def seg0 : String :=
  "\n    You are a Career Strategist specialized in the Purdue Masters of AI program.\n    \n    "

def seg1 : String :=
  "\n    \n    USER CONSTRAINTS:\n    - Target Industry: "

def seg2 : String :=
  "\n    - Preferred Role Function: "

def seg3 : String :=
  "\n    \n    TASK:\n    1. CENTER NODE: \""

def seg4 : String :=
  "\"\n    2. LAYER 1 (Job Titles): GENERATE 5 distinct job titles that fit the \""

def seg5 : String :=
  "\" profile within the "

def seg6 : String :=
  " industry.\n       - BE CREATIVE: Look for modern, emerging titles (e.g., \"AI Audit Manager\" or \"ML Ops Engineer\").\n    3. LAYER 2 (Certifications): For EACH job title, GENERATE 2-3 specific, high-value certifications that would help a candidate land THAT specific job.\n       - CRITICAL: The certifications must be relevant to the specific job node.\n\n    OUTPUT JSON STRUCTURE:\n    \x7b\n        \"center_node\": \x7b\n            \"name\": \""

def seg7 : String :=
  "\",\n            \"type\": \"Degree\",\n            \"mission\": \"Career Map for the "

def seg8 : String :=
  " track in "

def seg9 : String :=
  ".\",\n            \"positive_news\": \"Why this degree profile is valuable right now.\",\n            \"red_flags\": \"One skill gap to watch out for.\"\n        \x7d,\n        \"connections\": [\n            \x7b\n                \"name\": \"Generated Job Title\",\n                \"reason\": \"Why this fits the degree profile?\",\n                \"sub_connections\": [\n                    \x7b\"name\": \"Specific Cert A\", \"reason\": \"Why this cert?\"\x7d,\n                    \x7b\"name\": \"Specific Cert B\", \"reason\": \"Why this cert?\"\x7d\n                ]\n            \x7d\n        ]\n    \x7d\n    "

def industryOptions : List String :=
  ["Any", "Government / Public Sector", "Big Tech (FAANG)", "Consulting (Big 4)", "Nonfit / NGO", "Defense & Aerospace", "Financial Services", "Healthcare", "Consumer Tech"]

def styleOptions : List String :=
  ["Any", "Product & Strategy", "Risk & Compliance", "Policy & Research", "Technical Program Mgmt", "Trust & Safety", "Engineering & Dev", "Data Science"]

def trackOptions : List String :=
  ["AI Management & Policy", "AI and Machine Learning"]

/-- The `filters` dictionary built on line 243. -/
structure Filters where
  track : String
  industry : String
  style : String
deriving DecidableEq

/-- A `Filters` record that the sidebar controls can actually produce. -/
def validFilters (f : Filters) : Prop :=
  f.track ∈ trackOptions ∧ f.industry ∈ industryOptions ∧ f.style ∈ styleOptions

/-- Lines 73-89: the persona block chosen by the selected track (any track
other than "AI Management & Policy" falls into the ML branch, as in the
Python `if`/`else`). -/
def programContext (track : String) : String :=
  if track = "AI Management & Policy" then policyContext else mlContext

def centerNameOf (track : String) : String :=
  if track = "AI Management & Policy" then "Purdue Policy Grad" else "Purdue ML Grad"

/-- Lines 91-127: the `system_instruction` f-string. -/
def buildPrompt (f : Filters) : String :=
  seg0 ++ programContext f.track ++ seg1 ++ f.industry ++ seg2 ++ f.style
    ++ seg3 ++ centerNameOf f.track ++ seg4 ++ f.track ++ seg5 ++ f.industry
    ++ seg6 ++ centerNameOf f.track ++ seg7 ++ f.track ++ seg8 ++ f.industry ++ seg9

/-! ## Typed view of a parsed response (the fields the rendering code reads) -/

structure SubConn where
  name : String
  reason : String
deriving DecidableEq

structure Conn where
  name : String
  reason : String
  sub_connections : Option (List SubConn)
deriving DecidableEq

structure CenterInfo where
  name : String
  mission : String
deriving DecidableEq

structure GraphData where
  center_node : CenterInfo
  connections : List Conn
deriving DecidableEq

/-- The field accesses the rendering code performs on one
`sub_connections` entry (`sub["name"]`, `sub["reason"]`). -/
def decodeSub (j : JValue) : Option SubConn := do
  let n ← asStr (← getField j "name")
  let r ← asStr (← getField j "reason")
  pure ⟨n, r⟩

/-- The field accesses performed on one `connections` entry; a missing
`sub_connections` key is recorded as `none` (the code guards on
`"sub_connections" in item` / uses `item.get("sub_connections", [])`). -/
def decodeConn (j : JValue) : Option Conn := do
  let n ← asStr (← getField j "name")
  let r ← asStr (← getField j "reason")
  match getField j "sub_connections" with
  | none => pure ⟨n, r, none⟩
  | some sv => do
    let l ← asList sv
    let subs ← l.mapM decodeSub
    pure ⟨n, r, some subs⟩

/-- The field accesses performed on a whole parsed response by the rendering
code (lines 256-257, 272-323, 349-374): `center_node.name`,
`center_node.mission` and the per-connection fields. -/
def decodeGraphData (j : JValue) : Option GraphData := do
  let c ← getField j "center_node"
  let n ← asStr (← getField c "name")
  let m ← asStr (← getField c "mission")
  let conns ← asList (← getField j "connections")
  let cl ← conns.mapM decodeConn
  pure ⟨⟨n, m⟩, cl⟩

/-! ## Graph construction (lines 259-323) -/

structure GNode where
  id : String
  label : String
  size : Nat
  color : String
  shape : Option String
  title : Option String
deriving DecidableEq

structure GEdge where
  source : String
  target : String
  color : String
  width : Nat
  dashes : Bool
deriving DecidableEq

def centerGNode (c : CenterInfo) : GNode :=
  ⟨c.name, c.name, 45, "#B19CD9", some "dot", none⟩

def jobGNode (c : Conn) : GNode :=
  ⟨c.name, c.name, 30, "#FF4B4B", none, some c.reason⟩

def certGNode (jobName : String) (s : SubConn) : GNode :=
  ⟨s.name, s.name, 20, "#00C0F2", some "diamond", some ("Cert for " ++ jobName ++ ": " ++ s.reason)⟩

def jobGEdge (center : String) (c : Conn) : GEdge :=
  ⟨center, c.name, "#808080", 3, false⟩

def certGEdge (jobName : String) (s : SubConn) : GEdge :=
  ⟨jobName, s.name, "#404040", 1, true⟩

/-- The mutable triple `(nodes, edges, node_ids)` of the construction loop;
the Python `set` is modelled by the insertion-ordered list of ids that were
added to it. -/
structure BuildState where
  nodes : List GNode
  edges : List GEdge
  ids : List String
deriving DecidableEq

/-- Lines 302-323: the `sub_connections` inner loop. -/
def addSubs (jobName : String) : List SubConn → BuildState → BuildState
  | [], st => st
  | s :: rest, st =>
    let st1 :=
      if s.name ∈ st.ids then st
      else { st with nodes := st.nodes ++ [certGNode jobName s], ids := st.ids ++ [s.name] }
    addSubs jobName rest { st1 with edges := st1.edges ++ [certGEdge jobName s] }

/-- Lines 282-323: one iteration of the `for item in connections` loop. -/
def addConn (center : String) (st : BuildState) (c : Conn) : BuildState :=
  let st1 :=
    if c.name ∈ st.ids then st
    else { st with nodes := st.nodes ++ [jobGNode c], ids := st.ids ++ [c.name] }
  let st2 := { st1 with edges := st1.edges ++ [jobGEdge center c] }
  match c.sub_connections with
  | none => st2
  | some subs => addSubs c.name subs st2

def addConns (center : String) : List Conn → BuildState → BuildState
  | [], st => st
  | c :: rest, st => addConns center rest (addConn center st c)

/-- Lines 259-323: the node and edge lists handed to `agraph`. -/
def buildGraph (g : GraphData) : List GNode × List GEdge :=
  let st := addConns g.center_node.name g.connections
    ⟨[centerGNode g.center_node], [], [g.center_node.name]⟩
  (st.nodes, st.edges)

def subNames (c : Conn) : List String :=
  (c.sub_connections.getD []).map SubConn.name

def connNames (c : Conn) : List String :=
  c.name :: subNames c

/-- Every node name of a parsed response, in traversal order. -/
def graphNames (g : GraphData) : List String :=
  g.center_node.name :: (g.connections.map connNames).flatten

/-- The nodes one connection contributes when no name collides. -/
def nodeBlock (c : Conn) : List GNode :=
  jobGNode c :: (c.sub_connections.getD []).map (certGNode c.name)

/-- The edges one connection contributes (independent of collisions). -/
def edgeBlock (center : String) (c : Conn) : List GEdge :=
  jobGEdge center c :: (c.sub_connections.getD []).map (certGEdge c.name)

/-! ## Details resolution (lines 345-383) -/

def centerHint : String :=
  "Select a red node (Job) to see details, or a blue diamond (Cert) for requirements."

def notFoundText : String :=
  "Node details not found."

/-- Line 362-364: the bullet list accumulated under a job. -/
def certBullets (c : Conn) : String :=
  (c.sub_connections.getD []).foldl
    (fun acc s => acc ++ "\n- " ++ s.name) "Top Recommended Certifications:"

def boosterText (jobName : String) : String :=
  "Critical credibility booster for: " ++ jobName

/-- Lines 358-372: the `for c in connections` search loop, carried state
`(found, display_text, display_sub)`.  A job-name match breaks out of the
loop; a certification match sets the state but lets the outer loop continue,
exactly as the Python `break` only leaves the inner loop. -/
def detailsLoop (sel : String) : List Conn → Bool × String × String → Bool × String × String
  | [], acc => acc
  | c :: rest, acc =>
    if c.name = sel then (true, c.reason, certBullets c)
    else
      match (c.sub_connections.getD []).find? (fun s => s.name = sel) with
      | some s => detailsLoop sel rest (true, s.reason, boosterText c.name)
      | none => detailsLoop sel rest acc

/-- Lines 349-374: resolution of the clicked node to the details card
`(title, body, footer)`.  Line 349 maps a falsy `clicked_node` (`None` or
the empty string) to the center name. -/
def resolveDetails (g : GraphData) (clicked : Option String) : String × String × String :=
  let sel := match clicked with
    | some c => if c = "" then g.center_node.name else c
    | none => g.center_node.name
  if sel = g.center_node.name then (sel, g.center_node.mission, centerHint)
  else
    match detailsLoop sel g.connections (false, "", "") with
    | (true, text, sub) => (sel, text, sub)
    | (false, _, sub) => (sel, notFoundText, sub)

/-! ## Session state machine (lines 49-57, 129-144, 175-183, 245-250) -/

structure SessionState where
  graph_data : Option JValue
  token_usage : ℚ
  session_cost : ℚ
  should_fetch : Bool

/-- Lines 50-57: the state of a fresh session. -/
def initialState : SessionState :=
  ⟨none, 0, 0, false⟩

/-- The behaviour of the external completion service on one call. -/
inductive FetchOutcome where
  | noKey
  | serviceError
  | response (text : String)
deriving DecidableEq

/-- The value `get_gemini_response` returns for a given service behaviour
(independent of the session state and of the filters). -/
def fetchData (o : FetchOutcome) : Option JValue :=
  match o with
  | .noKey => none
  | .serviceError => none
  | .response t => parseGraph t

/-- Lines 60-144: `get_gemini_response`.  On a missing key or a service
exception it returns `None` without touching the counters; on a service
response it first adds `(len(prompt) + len(response)) / 4` tokens and a flat
`0.003` to the cost (lines 134-137) and then parses, returning `None` if the
parse raises. -/
def getGeminiResponse (f : Filters) (s : SessionState) (o : FetchOutcome) :
    SessionState × Option JValue :=
  match o with
  | .noKey => (s, none)
  | .serviceError => (s, none)
  | .response t =>
    ({ s with
        token_usage := s.token_usage
          + (((buildPrompt f).length : ℚ) + ((t : String).length : ℚ)) / 4,
        session_cost := s.session_cost + 3 / 1000 },
      parseGraph t)

/-- Lines 175-178: the "Generate Paths" button handler. -/
def generateClick (s : SessionState) : SessionState :=
  { s with should_fetch := true, graph_data := none }

/-- Lines 180-183: the "Clear Map" button handler. -/
def clearClick (s : SessionState) : SessionState :=
  { s with graph_data := none, should_fetch := false }

/-- Lines 245-250: the fetch block of the main script body.  The graph is
stored and the flag cleared only when the returned data is truthy. -/
def fetchStep (f : Filters) (s : SessionState) (o : FetchOutcome) : SessionState :=
  if s.should_fetch then
    let (s1, d) := getGeminiResponse f s o
    match d with
    | some v =>
      if v.isTruthy then { s1 with graph_data := some v, should_fetch := false } else s1
    | none => s1
  else s

/-! ## Concrete inputs used to instantiate the theorems -/

/-- A filters record the sidebar can produce. -/
def f0 : Filters :=
  ⟨"AI Management & Policy", "Any", "Any"⟩

/-- A session that already displays a graph. -/
def s0g : SessionState :=
  ⟨some (JValue.str "g"), 0, 0, false⟩

/-- A small valid JSON document that lacks every required graph field. -/
def okDoc : String :=
  "\x7b\"a\": \"b\"\x7d"

/-- The state after one generate click and one fetch on a fresh session. -/
def s5 : SessionState :=
  fetchStep f0 (generateClick initialState) (FetchOutcome.response okDoc)

/-- A response with two leading and two trailing fence markers. -/
def c3x : String :=
  "\x60\x60\x60json\x60\x60\x60json1\x60\x60\x60\x60\x60\x60"

def doc7 : String :=
  "\x60\x60\x60json\n\x7b\n  \"center_node\": \x7b\n    \"name\": \"Purdue Policy Grad\",\n    \"type\": \"Degree\",\n    \"mission\": \"Career Map for the AI Management & Policy track in Big Tech (FAANG).\",\n    \"positive_news\": \"pn\",\n    \"red_flags\": \"rf\"\n  \x7d,\n  \"connections\": [\n    \x7b\n      \"name\": \"AI Product Manager\",\n      \"reason\": \"r1\",\n      \"sub_connections\": [\n        \x7b\n          \"name\": \"CSPO\",\n          \"reason\": \"c11\"\n        \x7d,\n        \x7b\n          \"name\": \"AIPMM Cert\",\n          \"reason\": \"c12\"\n        \x7d\n      ]\n    \x7d,\n    \x7b\n      \"name\": \"AI Governance Lead\",\n      \"reason\": \"r2\",\n      \"sub_connections\": [\n        \x7b\n          \"name\": \"AIGP\",\n          \"reason\": \"c21\"\n        \x7d,\n        \x7b\n          \"name\": \"ISO 42001 Lead\",\n          \"reason\": \"c22\"\n        \x7d\n      ]\n    \x7d,\n    \x7b\n      \"name\": \"Responsible AI Strategist\",\n      \"reason\": \"r3\",\n      \"sub_connections\": [\n        \x7b\n          \"name\": \"NIST AI RMF\",\n          \"reason\": \"c31\"\n        \x7d,\n        \x7b\n          \"name\": \"CIPP\",\n          \"reason\": \"c32\"\n        \x7d\n      ]\n    \x7d,\n    \x7b\n      \"name\": \"AI Risk Manager\",\n      \"reason\": \"r4\",\n      \"sub_connections\": [\n        \x7b\n          \"name\": \"CRISC\",\n          \"reason\": \"c41\"\n        \x7d,\n        \x7b\n          \"name\": \"FAIR Analyst\",\n          \"reason\": \"c42\"\n        \x7d\n      ]\n    \x7d,\n    \x7b\n      \"name\": \"Technical Program Manager\",\n      \"reason\": \"r5\",\n      \"sub_connections\": [\n        \x7b\n          \"name\": \"PMP\",\n          \"reason\": \"c51\"\n        \x7d,\n        \x7b\n          \"name\": \"SAFe POPM\",\n          \"reason\": \"c52\"\n        \x7d\n      ]\n    \x7d\n  ]\n\x7d\n\x60\x60\x60"

/-- The graph decoded from `doc7` (the fallback is never reached). -/
def g7 : GraphData :=
  (decodeGraphData ((parseGraph doc7).getD JValue.null)).getD ⟨⟨"", ""⟩, []⟩

/-- A small graph with one job and one certification. -/
def g8 : GraphData :=
  ⟨⟨"Purdue Policy Grad", "m"⟩, [⟨"Job A", "ra", some [⟨"Cert A1", "ca"⟩]⟩]⟩

/-- A graph whose only certification is named by the empty string. -/
def g8x : GraphData :=
  ⟨⟨"C", "m"⟩, [⟨"J", "jr", some [⟨"", "cr"⟩]⟩]⟩

/-- A graph with no connections at all. -/
def g9x : GraphData :=
  ⟨⟨"C", "m"⟩, []⟩

/-- A graph whose first job lacks the `sub_connections` key. -/
def g10 : GraphData :=
  ⟨⟨"C", "m"⟩, [⟨"J", "jr", none⟩, ⟨"K", "kr", some [⟨"S", "sr"⟩]⟩]⟩

/-- A graph whose only job has the empty string as name and no
`sub_connections` key. -/
def g10x : GraphData :=
  ⟨⟨"C", "m"⟩, [⟨"", "jr", none⟩]⟩

/-- Static prompt pieces for the policy track, between the two slots where
the industry value is interpolated and around the role-function slot. -/
def polB0 : String :=
  seg0 ++ policyContext ++ seg1

def polB2 : String :=
  seg3 ++ "Purdue Policy Grad" ++ seg4 ++ "AI Management & Policy" ++ seg5

def polB3 : String :=
  seg6 ++ "Purdue Policy Grad" ++ seg7 ++ "AI Management & Policy" ++ seg8

/-- Static prompt pieces for the ML track. -/
def mlB0 : String :=
  seg0 ++ mlContext ++ seg1

def mlB2 : String :=
  seg3 ++ "Purdue ML Grad" ++ seg4 ++ "AI and Machine Learning" ++ seg5

def mlB3 : String :=
  seg6 ++ "Purdue ML Grad" ++ seg7 ++ "AI and Machine Learning" ++ seg8

/-! # Theorems

## Shared helper lemmas -/

theorem listStartsWith_self_append (p t : List Char) : listStartsWith p (p ++ t) = true := by
  induction p with
  | nil => rfl
  | cons c cs ih => simp [listStartsWith, ih]

theorem getGemini_snd (f : Filters) (s : SessionState) (o : FetchOutcome) :
    (getGeminiResponse f s o).2 = fetchData o := by
  cases o <;> rfl

theorem getGemini_graph (f : Filters) (s : SessionState) (o : FetchOutcome) :
    (getGeminiResponse f s o).1.graph_data = s.graph_data := by
  cases o <;> rfl

theorem getGemini_flag (f : Filters) (s : SessionState) (o : FetchOutcome) :
    (getGeminiResponse f s o).1.should_fetch = s.should_fetch := by
  cases o <;> rfl

theorem getGemini_tokens (f : Filters) (s : SessionState) (o : FetchOutcome) :
    s.token_usage ≤ (getGeminiResponse f s o).1.token_usage := by
  cases o with
  | noKey => exact le_refl _
  | serviceError => exact le_refl _
  | response t =>
    show s.token_usage ≤ s.token_usage + _
    have h0 : (0 : ℚ) ≤ (((buildPrompt f).length : ℚ) + ((t : String).length : ℚ)) / 4 := by
      positivity
    linarith

theorem getGemini_cost (f : Filters) (s : SessionState) (o : FetchOutcome) :
    s.session_cost ≤ (getGeminiResponse f s o).1.session_cost := by
  cases o with
  | noKey => exact le_refl _
  | serviceError => exact le_refl _
  | response t =>
    show s.session_cost ≤ s.session_cost + 3 / 1000
    linarith

theorem fetchStep_eq (f : Filters) (s : SessionState) (o : FetchOutcome) :
    fetchStep f s o =
      if s.should_fetch then
        match fetchData o with
        | some v =>
          if v.isTruthy then
            { (getGeminiResponse f s o).1 with graph_data := some v, should_fetch := false }
          else (getGeminiResponse f s o).1
        | none => (getGeminiResponse f s o).1
      else s := by
  cases o <;> rfl

/-! ## C2: graph preservation on a failed fetch cycle -/

/-- C2 counterexample: a session displaying a graph runs a generate click
followed by a failing fetch; afterwards `graph_data` is `None`, not the
previously displayed graph, because the generate handler clears the graph
before fetching (line 177). -/
theorem c2_counterexample :
    s0g.graph_data = some (JValue.str "g") ∧
    (fetchStep f0 (generateClick s0g) FetchOutcome.serviceError).graph_data = none ∧
    (fetchStep f0 (generateClick s0g) FetchOutcome.serviceError).graph_data ≠ s0g.graph_data := by
  refine ⟨rfl, rfl, ?_⟩
  show (none : Option JValue) ≠ some (JValue.str "g")
  simp

/-- C2 (amended): on a failing fetch the fetch block itself leaves
`graph_data` unchanged, but the generate click that initiates the cycle has
already cleared it, so after a failed cycle the session holds no graph (the
previously displayed graph does not remain). -/
theorem c2_amended (s : SessionState) (f : Filters) (o : FetchOutcome)
    (hfail : ∀ v, fetchData o = some v → v.isTruthy = false) :
    (fetchStep f s o).graph_data = s.graph_data ∧
    (fetchStep f (generateClick s) o).graph_data = none := by
  have key : ∀ s' : SessionState, (fetchStep f s' o).graph_data = s'.graph_data := by
    intro s'
    rw [fetchStep_eq]
    by_cases h : s'.should_fetch
    · simp only [h, if_true]
      cases hd : fetchData o with
      | none => simp [getGemini_graph]
      | some v => simp [hfail v hd, getGemini_graph]
    · simp [h]
  exact ⟨key s, (key (generateClick s)).trans rfl⟩

/-- C2 witness at a concrete failing outcome. -/
theorem c2_witness :
    (fetchStep f0 s0g FetchOutcome.serviceError).graph_data = s0g.graph_data ∧
    (fetchStep f0 (generateClick s0g) FetchOutcome.serviceError).graph_data = none :=
  c2_amended s0g f0 FetchOutcome.serviceError (fun _ h => Option.noConfusion h)

/-! ## C4: the `should_fetch` flag across a fetch cycle -/

/-- C4 counterexample: after a generate click and a completed-but-failed
fetch, `should_fetch` is still `True` (line 249 clears it only on success). -/
theorem c4_counterexample :
    (fetchStep f0 (generateClick initialState) FetchOutcome.serviceError).should_fetch ≠ false := by
  show true ≠ false
  simp

/-- C4 (amended): the generate click sets `should_fetch`; the fetch block
clears it only when the fetch returns truthy data, and leaves it set when
the fetch fails. -/
theorem c4_amended (s : SessionState) (f : Filters) (o : FetchOutcome) :
    (generateClick s).should_fetch = true ∧
    ((∃ v, fetchData o = some v ∧ v.isTruthy = true) →
      (fetchStep f (generateClick s) o).should_fetch = false) ∧
    ((∀ v, fetchData o = some v → v.isTruthy = false) →
      (fetchStep f (generateClick s) o).should_fetch = true) := by
  refine ⟨rfl, ?_, ?_⟩
  · rintro ⟨v, hv, ht⟩
    rw [fetchStep_eq]
    have hg : (generateClick s).should_fetch = true := rfl
    simp only [hg, if_true, hv, ht, if_true]
  · intro hfail
    rw [fetchStep_eq]
    have hg : (generateClick s).should_fetch = true := rfl
    cases hd : fetchData o with
    | none => simp only [hg, if_true, hd]; rw [getGemini_flag]; exact hg
    | some v =>
      simp only [hg, if_true, hd, hfail v hd, Bool.false_eq_true, if_false]
      rw [getGemini_flag]; exact hg

/-- C4 witness: a successful fetch clears the flag, a failing one leaves it
set. -/
theorem c4_witness :
    (generateClick initialState).should_fetch = true ∧
    (fetchStep f0 (generateClick initialState) (FetchOutcome.response okDoc)).should_fetch = false ∧
    (fetchStep f0 (generateClick initialState) FetchOutcome.serviceError).should_fetch = true := by
  refine ⟨(c4_amended initialState f0 FetchOutcome.serviceError).1, ?_, ?_⟩
  · exact (c4_amended initialState f0 (FetchOutcome.response okDoc)).2.1
      ⟨JValue.obj [("a", JValue.str "b")], rfl, rfl⟩
  · exact (c4_amended initialState f0 FetchOutcome.serviceError).2.2
      (fun _ h => Option.noConfusion h)

/-! ## C5: monotonicity of the cost and token counters -/

/-- C5 counterexample: after one paid fetch, the "Clear Map" handler
(lines 180-183) does not reset `session_cost` to zero. -/
theorem c5_counterexample : (clearClick s5).session_cost ≠ 0 := by
  show (0 : ℚ) + 3 / 1000 ≠ 0
  norm_num

/-- C5 (amended): the token and cost counters are monotonically
non-decreasing under every operation of the session, and the clear action
leaves them exactly unchanged — nothing resets them within a session. -/
theorem c5_amended (s : SessionState) (f : Filters) (o : FetchOutcome) :
    (generateClick s).token_usage = s.token_usage ∧
    (generateClick s).session_cost = s.session_cost ∧
    (clearClick s).token_usage = s.token_usage ∧
    (clearClick s).session_cost = s.session_cost ∧
    s.token_usage ≤ (fetchStep f s o).token_usage ∧
    s.session_cost ≤ (fetchStep f s o).session_cost := by
  refine ⟨rfl, rfl, rfl, rfl, ?_, ?_⟩
  · rw [fetchStep_eq]
    by_cases h : s.should_fetch
    · simp only [h, if_true]
      cases hd : fetchData o with
      | none => exact getGemini_tokens f s o
      | some v =>
        by_cases ht : v.isTruthy <;> simp only [ht, if_true, Bool.false_eq_true, if_false] <;>
          exact getGemini_tokens f s o
    · simp [h]
  · rw [fetchStep_eq]
    by_cases h : s.should_fetch
    · simp only [h, if_true]
      cases hd : fetchData o with
      | none => exact getGemini_cost f s o
      | some v =>
        by_cases ht : v.isTruthy <;> simp only [ht, if_true, Bool.false_eq_true, if_false] <;>
          exact getGemini_cost f s o
    · simp [h]

/-! ## C1: what makes `parseGraph` fail -/

/-- C1 counterexample: a valid JSON document with none of the required graph
fields is parsed successfully and returned as-is — `parseGraph` does not fail
on absent `center_node.name` / `connections` fields, contrary to the claim. -/
theorem c1_counterexample :
    parseGraph okDoc = some (JValue.obj [("a", JValue.str "b")]) ∧
    specHasRequiredFields (JValue.obj [("a", JValue.str "b")]) = false ∧
    parseGraph okDoc ≠ none := by
  refine ⟨rfl, rfl, fun h => ?_⟩
  rw [show parseGraph okDoc = some (JValue.obj [("a", JValue.str "b")]) from rfl] at h
  exact Option.noConfusion h

/-- C1 (amended): `parseGraph` fails exactly when the fence-stripped text is
not valid JSON; it performs no required-field validation, so a valid JSON
document lacking `center_node.name`, `connections[].name` and
`connections[].reason` still parses successfully and is returned as-is. -/
theorem c1_amended (raw : String) :
    (parseGraph raw = none ↔ jsonLoads (stripFences raw) = none) ∧
    ∀ j : JValue, jsonLoads (stripFences raw) = some j → specHasRequiredFields j = false →
      parseGraph raw = some j :=
  ⟨Iff.rfl, fun _ h _ => h⟩

/-- C1 witness at the concrete field-free document. -/
theorem c1_witness : parseGraph okDoc = some (JValue.obj [("a", JValue.str "b")]) :=
  (c1_amended okDoc).2 (JValue.obj [("a", JValue.str "b")]) rfl rfl

/-! ## C3: behaviour of the fence-stripping step -/

theorem pyRepAux_skip (pat rep y s : List Char) :
    pyRepAux pat rep y.length (y ++ s) = pyRepAux pat rep 0 s := by
  induction y with
  | nil => rfl
  | cons c cs ih => simpa [pyRepAux] using ih

theorem pyRepAux_match (p : Char) (pt rep s : List Char) :
    pyRepAux (p :: pt) rep 0 ((p :: pt) ++ s) = rep ++ pyRepAux (p :: pt) rep 0 s := by
  have hsw : listStartsWith (p :: pt) ((p :: pt) ++ s) = true := listStartsWith_self_append _ _
  have hlen : (p :: pt).length - 1 = pt.length := by simp
  show (if listStartsWith (p :: pt) (p :: (pt ++ s)) then
      rep ++ pyRepAux (p :: pt) rep ((p :: pt).length - 1) (pt ++ s)
    else p :: pyRepAux (p :: pt) rep 0 (pt ++ s)) = rep ++ pyRepAux (p :: pt) rep 0 s
  rw [show (p :: (pt ++ s)) = (p :: pt) ++ s from rfl]
  rw [hsw]
  rw [if_pos rfl]
  rw [hlen]
  rw [pyRepAux_skip]

theorem pyRepAux_pass (p : Char) (pt rep x s : List Char) (hx : ∀ c ∈ x, c ≠ p) :
    pyRepAux (p :: pt) rep 0 (x ++ s) = x ++ pyRepAux (p :: pt) rep 0 s := by
  induction x with
  | nil => rfl
  | cons c cs ih =>
    have hc : c ≠ p := hx c (by simp)
    have hdec : (decide (p = c)) = false := decide_eq_false (fun h => hc h.symm)
    have hsw : listStartsWith (p :: pt) (c :: (cs ++ s)) = false := by
      simp [listStartsWith, hdec]
    have step : pyRepAux (p :: pt) rep 0 ((c :: cs) ++ s) =
        if listStartsWith (p :: pt) (c :: (cs ++ s)) then
          rep ++ pyRepAux (p :: pt) rep ((p :: pt).length - 1) (cs ++ s)
        else c :: pyRepAux (p :: pt) rep 0 (cs ++ s) := rfl
    rw [step, hsw]
    simp only [Bool.false_eq_true, if_false]
    exact congrArg (c :: ·) (ih (fun d hd => hx d (by simp [hd])))

theorem pyRepAux_id (p : Char) (pt rep x : List Char) (hx : ∀ c ∈ x, c ≠ p) :
    pyRepAux (p :: pt) rep 0 x = x := by
  have h := pyRepAux_pass p pt rep x [] hx
  simpa [pyRepAux] using h

theorem pyStrip_cons_space (a : Char) (l : List Char) (ha : pyIsSpace a = true) :
    pyStrip ⟨a :: l⟩ = pyStrip ⟨l⟩ := by
  simp [pyStrip, List.dropWhile_cons, ha]

theorem pyStrip_append_space (l : List Char) (a : Char) (ha : pyIsSpace a = true) :
    pyStrip ⟨l ++ [a]⟩ = pyStrip ⟨l⟩ := by
  unfold pyStrip
  congr 1
  rw [List.dropWhile_append]
  by_cases he : (l.dropWhile pyIsSpace).isEmpty
  · have hnil : l.dropWhile pyIsSpace = [] := by
      cases hv : l.dropWhile pyIsSpace with
      | nil => rfl
      | cons x xs => rw [hv] at he; simp at he
    simp [he, hnil, List.dropWhile_cons, ha]
  · simp only [he, Bool.false_eq_true, if_false]
    rw [List.reverse_append]
    simp [List.dropWhile_cons, ha]

/-- C3 counterexample: a response with two leading and two trailing fence
markers; the code removes all four markers (and would also strip
whitespace), while the specified behaviour removes exactly one leading and
one trailing marker. -/
theorem c3_counterexample :
    stripFences c3x = "1" ∧ specFenceStrip c3x = "\x60\x60\x60json1\x60\x60\x60" ∧
    stripFences c3x ≠ specFenceStrip c3x := by
  refine ⟨rfl, rfl, ?_⟩
  show ("1" : String) ≠ "\x60\x60\x60json1\x60\x60\x60"
  decide

/-- C3 (amended): the cleaning step removes every occurrence of the
fence markers anywhere in the text (first all occurrences of the tagged
marker, then all occurrences of the bare marker) and then strips surrounding
whitespace.  Hence on backtick-free, already-stripped text it is the
identity, and it maps a conventionally fenced document to its stripped
body — but it is not the one-leading-one-trailing removal the claim
describes. -/
theorem c3_amended (s : String) (hbt : ∀ c ∈ s.data, c ≠ '\x60') :
    (pyStrip s = s → stripFences s = s) ∧
    stripFences ("\x60\x60\x60json\n" ++ s ++ "\n\x60\x60\x60") = pyStrip s := by
  constructor
  · intro hstrip
    have h1 : pyReplace s "\x60\x60\x60json" "" = s := by
      show (⟨pyRepAux ('\x60' :: ("\x60\x60json" : String).data) [] 0 s.data⟩ : String) = s
      rw [pyRepAux_id _ _ _ _ hbt]
    have h2 : pyReplace s "\x60\x60\x60" "" = s := by
      show (⟨pyRepAux ('\x60' :: ("\x60\x60" : String).data) [] 0 s.data⟩ : String) = s
      rw [pyRepAux_id _ _ _ _ hbt]
    show pyStrip (pyReplace (pyReplace s "\x60\x60\x60json" "") "\x60\x60\x60" "") = s
    rw [h1, h2, hstrip]
  · have L1 : pyRepAux ('\x60' :: ("\x60\x60json" : String).data) [] 0
        (("\x60\x60\x60json\n" ++ s ++ "\n\x60\x60\x60").data)
        = '\n' :: (s.data ++ ('\n' :: ("\x60\x60\x60" : String).data)) := by
      rw [show ("\x60\x60\x60json\n" ++ s ++ "\n\x60\x60\x60").data
          = ('\x60' :: ("\x60\x60json" : String).data)
            ++ (['\n'] ++ (s.data ++ ('\n' :: ("\x60\x60\x60" : String).data))) from rfl]
      rw [pyRepAux_match]
      rw [pyRepAux_pass _ _ _ _ _ (by decide)]
      rw [pyRepAux_pass _ _ _ _ _ hbt]
      rw [show pyRepAux ('\x60' :: ("\x60\x60json" : String).data) [] 0
          ('\n' :: ("\x60\x60\x60" : String).data)
          = '\n' :: ("\x60\x60\x60" : String).data from rfl]
      simp
    have L2 : pyRepAux ('\x60' :: ("\x60\x60" : String).data) [] 0
        ('\n' :: (s.data ++ ('\n' :: ("\x60\x60\x60" : String).data)))
        = '\n' :: (s.data ++ ['\n']) := by
      rw [show ('\n' :: (s.data ++ ('\n' :: ("\x60\x60\x60" : String).data)))
          = ['\n'] ++ (s.data ++ ('\n' :: ("\x60\x60\x60" : String).data)) from rfl]
      rw [pyRepAux_pass _ _ _ _ _ (by decide)]
      rw [pyRepAux_pass _ _ _ _ _ hbt]
      rw [show pyRepAux ('\x60' :: ("\x60\x60" : String).data) [] 0
          ('\n' :: ("\x60\x60\x60" : String).data) = ['\n'] from rfl]
      simp
    have hr1 : pyReplace ("\x60\x60\x60json\n" ++ s ++ "\n\x60\x60\x60") "\x60\x60\x60json" ""
        = ⟨'\n' :: (s.data ++ ('\n' :: ("\x60\x60\x60" : String).data))⟩ := by
      show (⟨pyRepAux ('\x60' :: ("\x60\x60json" : String).data) [] 0
        (("\x60\x60\x60json\n" ++ s ++ "\n\x60\x60\x60").data)⟩ : String) = _
      rw [L1]
    have hr2 : pyReplace (⟨'\n' :: (s.data ++ ('\n' :: ("\x60\x60\x60" : String).data))⟩ : String)
        "\x60\x60\x60" "" = ⟨'\n' :: (s.data ++ ['\n'])⟩ := by
      show (⟨pyRepAux ('\x60' :: ("\x60\x60" : String).data) [] 0
        ('\n' :: (s.data ++ ('\n' :: ("\x60\x60\x60" : String).data)))⟩ : String) = _
      rw [L2]
    show pyStrip (pyReplace (pyReplace ("\x60\x60\x60json\n" ++ s ++ "\n\x60\x60\x60")
      "\x60\x60\x60json" "") "\x60\x60\x60" "") = pyStrip s
    rw [hr1, hr2]
    rw [show (⟨'\n' :: (s.data ++ ['\n'])⟩ : String) = (⟨('\n' :: s.data) ++ ['\n']⟩ : String) from rfl]
    rw [pyStrip_append_space _ _ (by decide)]
    rw [pyStrip_cons_space _ _ (by decide)]

/-- C3 witness: a one-character backtick-free body. -/
theorem c3_witness :
    stripFences "x" = "x" ∧
    stripFences ("\x60\x60\x60json\n" ++ "x" ++ "\n\x60\x60\x60") = pyStrip "x" := by
  refine ⟨?_, (c3_amended "x" (by decide)).2⟩
  exact (c3_amended "x" (by decide)).1 rfl

/-! ## C7: node and edge counts of the rendered graph -/

theorem sum_map_const (l : List Conn) (f : Conn → Nat) (k : Nat)
    (h : ∀ x ∈ l, f x = k) : (l.map f).sum = k * l.length := by
  induction l with
  | nil => simp
  | cons x xs ih =>
    simp only [List.map_cons, List.sum_cons, List.length_cons,
      ih (fun y hy => h y (by simp [hy]))]
    rw [h x (by simp)]
    ring

theorem addSubs_char (j : String) (subs : List SubConn) (st : BuildState)
    (h : (st.ids ++ subs.map SubConn.name).Nodup) :
    addSubs j subs st =
      ⟨st.nodes ++ subs.map (certGNode j), st.edges ++ subs.map (certGEdge j),
        st.ids ++ subs.map SubConn.name⟩ := by
  induction subs generalizing st with
  | nil => simp [addSubs]
  | cons s rest ih =>
    have hmem : s.name ∉ st.ids := by
      intro hm
      exact (List.nodup_append.mp h).2.2 hm (by simp)
    have h2 : ((st.ids ++ [s.name]) ++ rest.map SubConn.name).Nodup := by
      rw [List.append_assoc]
      simpa using h
    simp only [addSubs, hmem, if_false]
    rw [ih _ h2]
    simp

theorem addConn_char (center : String) (st : BuildState) (c : Conn)
    (h : (st.ids ++ connNames c).Nodup) :
    addConn center st c =
      ⟨st.nodes ++ nodeBlock c, st.edges ++ edgeBlock center c, st.ids ++ connNames c⟩ := by
  have hmem : c.name ∉ st.ids := by
    intro hm
    exact (List.nodup_append.mp h).2.2 hm (by simp [connNames])
  cases hs : c.sub_connections with
  | none =>
    simp [addConn, hmem, hs, nodeBlock, edgeBlock, connNames, subNames]
  | some subs =>
    have h2 : ((st.ids ++ [c.name]) ++ subs.map SubConn.name).Nodup := by
      rw [List.append_assoc]
      simpa [connNames, subNames, hs] using h
    simp only [addConn, hmem, if_false, hs]
    rw [addSubs_char _ _ _ h2]
    simp [nodeBlock, edgeBlock, connNames, subNames, hs]

theorem addConns_char (center : String) (conns : List Conn) (st : BuildState)
    (h : (st.ids ++ (conns.map connNames).flatten).Nodup) :
    addConns center conns st =
      ⟨st.nodes ++ (conns.map nodeBlock).flatten,
        st.edges ++ (conns.map (edgeBlock center)).flatten,
        st.ids ++ (conns.map connNames).flatten⟩ := by
  induction conns generalizing st with
  | nil => simp [addConns]
  | cons c rest ih =>
    have hassoc : ((st.ids ++ connNames c) ++ (rest.map connNames).flatten).Nodup := by
      rw [List.append_assoc]
      simpa using h
    have h1 : (st.ids ++ connNames c).Nodup := hassoc.of_append_left
    simp only [addConns]
    rw [addConn_char center st c h1]
    rw [ih _ (by simpa using hassoc)]
    simp

/-- The full shape of the graph handed to the widget when no names collide:
the center node followed by each connection's block of nodes, and each
connection's block of edges. -/
theorem buildGraph_char (g : GraphData) (hnd : (graphNames g).Nodup) :
    buildGraph g =
      (centerGNode g.center_node :: (g.connections.map nodeBlock).flatten,
        (g.connections.map (edgeBlock g.center_node.name)).flatten) := by
  have h : ([g.center_node.name] ++ (g.connections.map connNames).flatten).Nodup := by
    simpa [graphNames] using hnd
  unfold buildGraph
  rw [addConns_char _ _ _ h]
  simp

/-- C7: for a parsed response with five jobs carrying two certifications
each and pairwise-distinct names, the rendered graph has exactly
1 + 5 + 10 = 16 nodes and 5 + 10 = 15 edges. -/
theorem c7_counts (g : GraphData)
    (h5 : g.connections.length = 5)
    (h2 : ∀ c ∈ g.connections, (c.sub_connections.getD []).length = 2)
    (hnd : (graphNames g).Nodup) :
    (buildGraph g).1.length = 16 ∧ (buildGraph g).2.length = 15 := by
  rw [buildGraph_char g hnd]
  constructor
  · show (centerGNode g.center_node :: (g.connections.map nodeBlock).flatten).length = 16
    rw [List.length_cons, List.length_flatten, List.map_map]
    rw [sum_map_const _ _ 3 (fun c hc => by simp [nodeBlock, h2 c hc])]
    rw [h5]
  · show ((g.connections.map (edgeBlock g.center_node.name)).flatten).length = 15
    rw [List.length_flatten, List.map_map]
    rw [sum_map_const _ _ 3 (fun c hc => by simp [edgeBlock, h2 c hc])]
    rw [h5]

set_option maxRecDepth 40000 in
/-- C7 witness: the end-to-end scenario — the fenced 16-node document is
parsed, decoded, and rendered with 16 nodes and 15 edges. -/
theorem c7_witness :
    (parseGraph doc7).isSome = true ∧
    (decodeGraphData ((parseGraph doc7).getD JValue.null)).isSome = true ∧
    (buildGraph g7).1.length = 16 ∧ (buildGraph g7).2.length = 15 :=
  ⟨by decide, by decide, c7_counts g7 (by decide) (by decide) (by decide)⟩

/-! ## C8, C9, C10: details resolution -/

theorem detailsLoop_cons (sel : String) (c : Conn) (rest : List Conn)
    (acc : Bool × String × String) :
    detailsLoop sel (c :: rest) acc =
      if c.name = sel then (true, c.reason, certBullets c)
      else
        match (c.sub_connections.getD []).find? (fun s => s.name = sel) with
        | some s => detailsLoop sel rest (true, s.reason, boosterText c.name)
        | none => detailsLoop sel rest acc := rfl

theorem detailsLoop_pass (sel : String) (conns : List Conn) (acc : Bool × String × String)
    (h : ∀ c ∈ conns, c.name ≠ sel ∧ ∀ s ∈ c.sub_connections.getD [], s.name ≠ sel) :
    detailsLoop sel conns acc = acc := by
  induction conns with
  | nil => rfl
  | cons c rest ih =>
    have hc := h c (by simp)
    have hf : (c.sub_connections.getD []).find? (fun s => s.name = sel) = none :=
      List.find?_eq_none.mpr (fun x hx => by simpa using hc.2 x hx)
    rw [detailsLoop_cons, if_neg hc.1, hf]
    exact ih (fun d hd => h d (by simp [hd]))

theorem find?_name_eq (subs : List SubConn) (s : SubConn)
    (hs : s ∈ subs) (hnd : (subs.map SubConn.name).Nodup) :
    subs.find? (fun x => x.name = s.name) = some s := by
  induction subs with
  | nil => cases hs
  | cons a rest ih =>
    rcases List.mem_cons.mp hs with h1 | h2
    · subst h1
      simp [List.find?]
    · have hne : a.name ≠ s.name := by
        intro he
        have hm : s.name ∈ rest.map SubConn.name := List.mem_map_of_mem _ h2
        rw [← he] at hm
        exact (List.nodup_cons.mp hnd).1 hm
      rw [List.find?_cons_of_neg _ (by simpa using hne)]
      exact ih h2 (List.nodup_cons.mp hnd).2

theorem detailsLoop_hit_job (j : Conn) (pre post : List Conn) (acc : Bool × String × String)
    (hpre : ∀ c ∈ pre, c.name ≠ j.name ∧ ∀ s ∈ c.sub_connections.getD [], s.name ≠ j.name) :
    detailsLoop j.name (pre ++ j :: post) acc = (true, j.reason, certBullets j) := by
  induction pre generalizing acc with
  | nil =>
    rw [List.nil_append, detailsLoop_cons, if_pos rfl]
  | cons c rest ih =>
    have hc := hpre c (by simp)
    have hf : (c.sub_connections.getD []).find? (fun s => s.name = j.name) = none :=
      List.find?_eq_none.mpr (fun x hx => by simpa using hc.2 x hx)
    rw [List.cons_append, detailsLoop_cons, if_neg hc.1, hf]
    exact ih acc (fun d hd => hpre d (by simp [hd]))

theorem detailsLoop_hit_cert (j : Conn) (s : SubConn) (pre post : List Conn)
    (acc : Bool × String × String)
    (hjname : j.name ≠ s.name)
    (hfind : (j.sub_connections.getD []).find? (fun x => x.name = s.name) = some s)
    (hpre : ∀ c ∈ pre, c.name ≠ s.name ∧ ∀ x ∈ c.sub_connections.getD [], x.name ≠ s.name)
    (hpost : ∀ c ∈ post, c.name ≠ s.name ∧ ∀ x ∈ c.sub_connections.getD [], x.name ≠ s.name) :
    detailsLoop s.name (pre ++ j :: post) acc = (true, s.reason, boosterText j.name) := by
  induction pre generalizing acc with
  | nil =>
    rw [List.nil_append, detailsLoop_cons, if_neg hjname, hfind]
    exact detailsLoop_pass _ _ _ hpost
  | cons c rest ih =>
    have hc := hpre c (by simp)
    have hf : (c.sub_connections.getD []).find? (fun x => x.name = s.name) = none :=
      List.find?_eq_none.mpr (fun x hx => by simpa using hc.2 x hx)
    rw [List.cons_append, detailsLoop_cons, if_neg hc.1, hf]
    exact ih acc (fun d hd => hpre d (by simp [hd]))

theorem not_sel_of_flat (conns : List Conn) (sel : String)
    (h : sel ∉ (conns.map connNames).flatten) :
    ∀ c ∈ conns, c.name ≠ sel ∧ ∀ x ∈ c.sub_connections.getD [], x.name ≠ sel := by
  intro c hc
  constructor
  · intro he
    apply h
    exact List.mem_flatten.mpr ⟨connNames c, List.mem_map_of_mem _ hc, by simp [connNames, he]⟩
  · intro x hx he
    apply h
    refine List.mem_flatten.mpr ⟨connNames c, List.mem_map_of_mem _ hc, ?_⟩
    rw [← he]
    exact List.mem_cons_of_mem _ (List.mem_map_of_mem _ hx)

theorem resolveDetails_some (g : GraphData) (x : String) (hne : x ≠ "")
    (hc : x ≠ g.center_node.name) :
    resolveDetails g (some x) =
      (match detailsLoop x g.connections (false, "", "") with
        | (true, text, sub) => (x, text, sub)
        | (false, _, sub) => (x, notFoundText, sub)) := by
  simp only [resolveDetails]
  rw [if_neg hne, if_neg hc]

theorem mem_flat_of_name (conns : List Conn) (j : Conn) (hj : j ∈ conns) :
    j.name ∈ (conns.map connNames).flatten :=
  List.mem_flatten.mpr ⟨connNames j, List.mem_map_of_mem _ hj, by simp [connNames]⟩

theorem mem_flat_of_sub (conns : List Conn) (j : Conn) (x : SubConn)
    (hj : j ∈ conns) (hx : x ∈ j.sub_connections.getD []) :
    x.name ∈ (conns.map connNames).flatten := by
  have hx2 : x.name ∈ subNames j := by
    simpa [subNames] using List.mem_map_of_mem SubConn.name hx
  exact List.mem_flatten.mpr
    ⟨connNames j, List.mem_map_of_mem _ hj, List.mem_cons_of_mem _ hx2⟩

theorem center_notin_flat (g : GraphData) (hnd : (graphNames g).Nodup) :
    g.center_node.name ∉ (g.connections.map connNames).flatten :=
  (List.nodup_cons.mp hnd).1

theorem flat_nodup (g : GraphData) (hnd : (graphNames g).Nodup) :
    ((g.connections.map connNames).flatten).Nodup :=
  (List.nodup_cons.mp hnd).2

/-- The resolution of a job node: its reason, plus the certification bullet
list. -/
theorem resolveDetails_job (g : GraphData) (j : Conn)
    (hnd : (graphNames g).Nodup) (hj : j ∈ g.connections) (hne : j.name ≠ "") :
    resolveDetails g (some j.name) = (j.name, j.reason, certBullets j) := by
  have hcen : j.name ≠ g.center_node.name := by
    intro he
    exact center_notin_flat g hnd (he ▸ mem_flat_of_name g.connections j hj)
  obtain ⟨pre, post, hsplit⟩ := List.append_of_mem hj
  have hflat : ((pre.map connNames).flatten ++
      (connNames j ++ (post.map connNames).flatten)).Nodup := by
    have := flat_nodup g hnd
    rw [hsplit] at this
    simpa [List.flatten_append] using this
  have hjpre : j.name ∉ (pre.map connNames).flatten := by
    intro hm
    exact (List.nodup_append.mp hflat).2.2 hm (by simp [connNames])
  rw [resolveDetails_some g j.name hne hcen, hsplit]
  rw [detailsLoop_hit_job j pre post _ (not_sel_of_flat pre j.name hjpre)]

/-- C8 counterexample: a duplicate-free graph whose certification is named by
the empty string; resolving that name shows the center mission, not the
certification's reason, because line 349 treats the falsy clicked id as "no
selection". -/
theorem c8_counterexample :
    (graphNames g8x).Nodup ∧
    (⟨"", "cr"⟩ : SubConn) ∈ (⟨"J", "jr", some [⟨"", "cr"⟩]⟩ : Conn).sub_connections.getD [] ∧
    resolveDetails g8x (some "") = ("C", "m", centerHint) ∧
    (resolveDetails g8x (some "")).2.1 ≠ "cr" := by
  refine ⟨by decide, by decide, rfl, ?_⟩
  show ("m" : String) ≠ "cr"
  decide

/-- C8 (amended): in a graph without duplicate names, resolving the name of
any certification whose name is nonempty yields that certification's reason
as the body and a footer naming its parent job.  (An empty certification
name is remapped to the center by the falsy-id check of line 349.) -/
theorem c8_amended (g : GraphData) (j : Conn) (s : SubConn)
    (hnd : (graphNames g).Nodup) (hj : j ∈ g.connections)
    (hs : s ∈ j.sub_connections.getD []) (hne : s.name ≠ "") :
    resolveDetails g (some s.name) = (s.name, s.reason, boosterText j.name) := by
  have hcen : s.name ≠ g.center_node.name := by
    intro he
    exact center_notin_flat g hnd (he ▸ mem_flat_of_sub g.connections j s hj hs)
  obtain ⟨pre, post, hsplit⟩ := List.append_of_mem hj
  have hflat : ((pre.map connNames).flatten ++
      (connNames j ++ (post.map connNames).flatten)).Nodup := by
    have := flat_nodup g hnd
    rw [hsplit] at this
    simpa [List.flatten_append] using this
  have hmid : (connNames j ++ (post.map connNames).flatten).Nodup :=
    (List.nodup_append.mp hflat).2.1
  have hcj : (j.name :: subNames j).Nodup := hmid.of_append_left
  have hsmem : s.name ∈ subNames j := by
    simpa [subNames] using List.mem_map_of_mem SubConn.name hs
  have hjs : j.name ≠ s.name := by
    intro he
    exact (List.nodup_cons.mp hcj).1 (he ▸ hsmem)
  have hsname : s.name ∈ connNames j := List.mem_cons_of_mem _ hsmem
  have hpre : s.name ∉ (pre.map connNames).flatten := by
    intro hm
    exact (List.nodup_append.mp hflat).2.2 hm (List.mem_append.mpr (Or.inl hsname))
  have hpost : s.name ∉ (post.map connNames).flatten := by
    intro hm
    exact (List.nodup_append.mp hmid).2.2 hsname hm
  have hfind : (j.sub_connections.getD []).find? (fun x => x.name = s.name) = some s :=
    find?_name_eq _ s hs (by simpa [subNames] using (List.nodup_cons.mp hcj).2)
  rw [resolveDetails_some g s.name hne hcen, hsplit]
  rw [detailsLoop_hit_cert j s pre post _ hjs hfind
    (not_sel_of_flat pre s.name hpre) (not_sel_of_flat post s.name hpost)]

/-- C8 witness on a one-job, one-certification graph. -/
theorem c8_witness :
    resolveDetails g8 (some "Cert A1") = ("Cert A1", "ca", boosterText "Job A") :=
  c8_amended g8 ⟨"Job A", "ra", some [⟨"Cert A1", "ca"⟩]⟩ ⟨"Cert A1", "ca"⟩
    (by decide) (by decide) (by decide) (by decide)

/-- C9 counterexample: the empty selection id matches no node of `g9x`
(the graph has no connections and its center is named "C"), yet resolution
returns the center mission, not the "not found" placeholder, because line
349 treats a falsy clicked id as "no selection". -/
theorem c9_counterexample :
    g9x.connections = [] ∧ ("" : String) ≠ g9x.center_node.name ∧
    resolveDetails g9x (some "") = ("C", "m", centerHint) ∧
    (resolveDetails g9x (some "")).2.1 ≠ notFoundText := by
  refine ⟨rfl, by decide, rfl, ?_⟩
  show ("m" : String) ≠ notFoundText
  decide

/-- C9 (amended): for every nonempty selection id matching neither the
center name nor any job or certification name, resolution returns the
literal "not found" placeholder (and, being a total function, it never
raises).  An empty selection id is instead remapped to the center. -/
theorem c9_amended (g : GraphData) (sel : String) (hne : sel ≠ "")
    (hc : sel ≠ g.center_node.name)
    (hmiss : ∀ c ∈ g.connections, c.name ≠ sel ∧
      ∀ x ∈ c.sub_connections.getD [], x.name ≠ sel) :
    resolveDetails g (some sel) = (sel, notFoundText, "") := by
  rw [resolveDetails_some g sel hne hc]
  rw [detailsLoop_pass sel g.connections _ hmiss]

/-- C9 witness: an id absent from a nonempty graph. -/
theorem c9_witness : resolveDetails g8 (some "Nope") = ("Nope", notFoundText, "") :=
  c9_amended g8 "Nope" (by decide) (by decide) (by decide)

/-! ## C10: a job entry without the `sub_connections` key -/

theorem filter_flatten_nil (p : GEdge → Bool) (L : List (List GEdge))
    (h : ∀ l ∈ L, l.filter p = []) : L.flatten.filter p = [] := by
  induction L with
  | nil => rfl
  | cons a rest ih =>
    simp only [List.flatten_cons, List.filter_append, h a (by simp),
      ih (fun l hl => h l (by simp [hl])), List.append_nil]

theorem filter_dashed_block (center jn : String) (c : Conn) (hne : c.name ≠ jn) :
    (edgeBlock center c).filter (fun e => e.dashes && e.source == jn) = [] := by
  rw [List.filter_eq_nil_iff]
  intro e he
  rcases List.mem_cons.mp he with rfl | hm
  · simp [jobGEdge]
  · obtain ⟨x, hx, rfl⟩ := List.mem_map.mp hm
    simp [certGEdge, hne]

/-- C10 counterexample: a job with no `sub_connections` key whose name is the
empty string; builder and resolver both complete, but selecting that job
shows the center panel (line 349 treats the falsy id as "no selection"),
not the job's reason. -/
theorem c10_counterexample :
    g10x.connections = [⟨"", "jr", none⟩] ∧ (graphNames g10x).Nodup ∧
    resolveDetails g10x (some "") = ("C", "m", centerHint) ∧
    (resolveDetails g10x (some "")).2.1 ≠ "jr" := by
  refine ⟨rfl, by decide, rfl, ?_⟩
  show ("m" : String) ≠ "jr"
  decide

/-- C10 (amended): in a duplicate-free graph, a job entry lacking the
`sub_connections` key contributes exactly its own node and its center edge
(zero certification nodes and edges, and no dashed edge of the whole graph
leaves it), the whole construction completing without error; and — provided
the job's name is nonempty — selecting it yields its reason with the empty
bullet list. -/
theorem c10_amended (g : GraphData) (j : Conn)
    (hj : j ∈ g.connections) (hn : j.sub_connections = none)
    (hnd : (graphNames g).Nodup) (hne : j.name ≠ "") :
    nodeBlock j = [jobGNode j] ∧
    edgeBlock g.center_node.name j = [jobGEdge g.center_node.name j] ∧
    buildGraph g = (centerGNode g.center_node :: (g.connections.map nodeBlock).flatten,
      (g.connections.map (edgeBlock g.center_node.name)).flatten) ∧
    (buildGraph g).2.filter (fun e => e.dashes && e.source == j.name) = [] ∧
    resolveDetails g (some j.name) = (j.name, j.reason, "Top Recommended Certifications:") := by
  obtain ⟨pre, post, hsplit⟩ := List.append_of_mem hj
  have hflat : ((pre.map connNames).flatten ++
      (connNames j ++ (post.map connNames).flatten)).Nodup := by
    have := flat_nodup g hnd
    rw [hsplit] at this
    simpa [List.flatten_append] using this
  have hmid : (connNames j ++ (post.map connNames).flatten).Nodup :=
    (List.nodup_append.mp hflat).2.1
  have hfilter : (g.connections.map (edgeBlock g.center_node.name)).flatten.filter
      (fun e => e.dashes && e.source == j.name) = [] := by
    apply filter_flatten_nil
    intro l hl
    obtain ⟨c, hc, rfl⟩ := List.mem_map.mp hl
    rw [hsplit] at hc
    rcases List.mem_append.mp hc with hcpre | hcj
    · apply filter_dashed_block
      intro he
      exact (List.nodup_append.mp hflat).2.2 (he ▸ mem_flat_of_name pre c hcpre)
        (List.mem_append.mpr (Or.inl (by simp [connNames])))
    · rcases List.mem_cons.mp hcj with rfl | hcpost
      · rw [List.filter_eq_nil_iff]
        intro e he
        have hee : e = jobGEdge g.center_node.name c := by simpa [edgeBlock, hn] using he
        subst hee
        simp [jobGEdge]
      · apply filter_dashed_block
        intro he
        exact (List.nodup_append.mp hmid).2.2 (by simp [connNames])
          (he ▸ mem_flat_of_name post c hcpost)
  refine ⟨by simp [nodeBlock, hn], by simp [edgeBlock, hn], buildGraph_char g hnd, ?_, ?_⟩
  · rw [buildGraph_char g hnd]
    exact hfilter
  · rw [resolveDetails_job g j hnd hj hne]
    simp [certBullets, hn]

/-- C10 witness on a concrete graph whose first job lacks the key. -/
theorem c10_witness :
    buildGraph g10 = (centerGNode g10.center_node :: (g10.connections.map nodeBlock).flatten,
      (g10.connections.map (edgeBlock g10.center_node.name)).flatten) ∧
    (buildGraph g10).2.filter (fun e => e.dashes && e.source == "J") = [] ∧
    resolveDetails g10 (some "J") = ("J", "jr", "Top Recommended Certifications:") := by
  have h := c10_amended g10 ⟨"J", "jr", none⟩ (by decide) rfl (by decide) (by decide)
  exact ⟨h.2.2.1, h.2.2.2.1, h.2.2.2.2⟩

/-! ## C6: the prompt built from a filter record -/

theorem countOcc_cons (pat : List Char) (c : Char) (cs : List Char) :
    countOcc pat (c :: cs) =
      if listStartsWith pat (c :: cs) then Nat.succ (countOcc pat cs)
      else countOcc pat cs := rfl

theorem listStartsWith_le (P : List Char) : ∀ (x s : List Char), P.length ≤ x.length →
    listStartsWith P (x ++ s) = listStartsWith P x := by
  induction P with
  | nil => intro x s _; rfl
  | cons p ps ih =>
    intro x s h
    cases x with
    | nil => simp at h
    | cons c cs =>
      show (decide (p = c) && listStartsWith ps (cs ++ s))
        = (decide (p = c) && listStartsWith ps cs)
      rw [ih cs s (by simpa using h)]

theorem listStartsWith_long (P : List Char) : ∀ x : List Char, x.length < P.length →
    listStartsWith P x = false := by
  induction P with
  | nil => intro x h; simp at h
  | cons p ps ih =>
    intro x h
    cases x with
    | nil => rfl
    | cons c cs =>
      show (decide (p = c) && listStartsWith ps cs) = false
      rw [ih cs (by simpa using h)]
      simp

theorem listStartsWith_pre : ∀ (x P s : List Char), x.length < P.length →
    listStartsWith P (x ++ s) = true → listStartsWith x P = true := by
  intro x
  induction x with
  | nil => intro P s _ _; rfl
  | cons c cs ih =>
    intro P s hlt h
    cases P with
    | nil => simp at hlt
    | cons p ps =>
      have h' : (decide (p = c) && listStartsWith ps (cs ++ s)) = true := h
      obtain ⟨h1, h2⟩ := Bool.and_eq_true_iff.mp h'
      have hpc : p = c := of_decide_eq_true h1
      show (decide (c = p) && listStartsWith cs ps) = true
      rw [ih ps s (by simpa using hlt) h2]
      simp [hpc]

theorem countOcc_splice (pat : List Char) : ∀ (A s : List Char),
    hangingMatch pat A = false →
    countOcc pat (A ++ s) = countOcc pat A + countOcc pat s := by
  intro A
  induction A with
  | nil => intro s _; simp [countOcc]
  | cons c cs ih =>
    intro s h
    have hsplit : ((decide ((c :: cs).length < pat.length) && listStartsWith (c :: cs) pat)
        || hangingMatch pat cs) = false := h
    obtain ⟨hfirst, hrest⟩ := Bool.or_eq_false_iff.mp hsplit
    by_cases hlen : (c :: cs).length < pat.length
    · have hswA : listStartsWith pat (c :: cs) = false := listStartsWith_long pat _ hlen
      have hsw2 : listStartsWith pat ((c :: cs) ++ s) = false := by
        cases hb : listStartsWith pat ((c :: cs) ++ s) with
        | false => rfl
        | true =>
          have hpre : listStartsWith (c :: cs) pat = true :=
            listStartsWith_pre (c :: cs) pat s hlen hb
          rw [decide_eq_true hlen, hpre] at hfirst
          simp at hfirst
      rw [List.cons_append, countOcc_cons, countOcc_cons]
      have hsw2' : listStartsWith pat (c :: (cs ++ s)) = false := hsw2
      rw [hsw2', hswA, if_neg (by simp), if_neg (by simp)]
      exact ih s hrest
    · have heq : listStartsWith pat ((c :: cs) ++ s) = listStartsWith pat (c :: cs) :=
        listStartsWith_le pat (c :: cs) s (Nat.le_of_not_lt hlen)
      rw [List.cons_append, countOcc_cons, countOcc_cons]
      have heq' : listStartsWith pat (c :: (cs ++ s)) = listStartsWith pat (c :: cs) := heq
      rw [heq']
      cases hsw : listStartsWith pat (c :: cs) with
      | true => simp [ih s hrest, Nat.succ_add]
      | false => simp [ih s hrest]

theorem countOcc_nl_skip (pat : List Char) (hp : pat.head? = some '\n') :
    ∀ (x s : List Char), (∀ c ∈ x, c ≠ '\n') →
    countOcc pat (x ++ s) = countOcc pat s := by
  cases pat with
  | nil => simp at hp
  | cons p ps =>
    have hpn : p = '\n' := by simpa using hp
    subst hpn
    intro x
    induction x with
    | nil => intro s _; rfl
    | cons c cs ih =>
      intro s hx
      have hc : c ≠ '\n' := hx c (by simp)
      have hdec : decide ('\n' = c) = false := decide_eq_false (fun h => hc h.symm)
      have hsw : listStartsWith ('\n' :: ps) (c :: (cs ++ s)) = false := by
        simp [listStartsWith, hdec]
      rw [List.cons_append, countOcc_cons, hsw, if_neg (by simp)]
      exact ih s (fun d hd => hx d (by simp [hd]))

theorem promptPolicy_data (ind sty : String) :
    (buildPrompt ⟨"AI Management & Policy", ind, sty⟩).data =
      polB0.data ++ (ind.data ++ (seg2.data ++ (sty.data ++ (polB2.data ++ (ind.data ++
        (polB3.data ++ (ind.data ++ seg9.data))))))) := by
  simp [buildPrompt, polB0, polB2, polB3, String.data_append, List.append_assoc,
    show programContext "AI Management & Policy" = policyContext from rfl,
    show centerNameOf "AI Management & Policy" = "Purdue Policy Grad" from rfl]

theorem promptMl_data (ind sty : String) :
    (buildPrompt ⟨"AI and Machine Learning", ind, sty⟩).data =
      mlB0.data ++ (ind.data ++ (seg2.data ++ (sty.data ++ (mlB2.data ++ (ind.data ++
        (mlB3.data ++ (ind.data ++ seg9.data))))))) := by
  simp [buildPrompt, mlB0, mlB2, mlB3, String.data_append, List.append_assoc,
    show programContext "AI and Machine Learning" = mlContext from rfl,
    show centerNameOf "AI and Machine Learning" = "Purdue ML Grad" from rfl]

theorem countOcc_prompt_pieces (pat : List Char) (hp : pat.head? = some '\n')
    (B0 B2 B3 ind sty : String)
    (hind : ∀ c ∈ ind.data, c ≠ '\n') (hsty : ∀ c ∈ sty.data, c ≠ '\n')
    (h0 : hangingMatch pat B0.data = false)
    (h1 : hangingMatch pat seg2.data = false)
    (h2 : hangingMatch pat B2.data = false)
    (h3 : hangingMatch pat B3.data = false) :
    countOcc pat (B0.data ++ (ind.data ++ (seg2.data ++ (sty.data ++ (B2.data ++ (ind.data ++
        (B3.data ++ (ind.data ++ seg9.data)))))))) =
      countOcc pat B0.data + countOcc pat seg2.data + countOcc pat B2.data +
        countOcc pat B3.data + countOcc pat seg9.data := by
  rw [countOcc_splice pat B0.data _ h0]
  rw [countOcc_nl_skip pat hp ind.data _ hind]
  rw [countOcc_splice pat seg2.data _ h1]
  rw [countOcc_nl_skip pat hp sty.data _ hsty]
  rw [countOcc_splice pat B2.data _ h2]
  rw [countOcc_nl_skip pat hp ind.data _ hind]
  rw [countOcc_splice pat B3.data _ h3]
  rw [countOcc_nl_skip pat hp ind.data _ hind]
  omega

set_option maxRecDepth 100000 in
theorem pol_pattern_pol_pieces :
    (hangingMatch policyContext.data polB0.data = false ∧
      hangingMatch policyContext.data seg2.data = false ∧
      hangingMatch policyContext.data polB2.data = false ∧
      hangingMatch policyContext.data polB3.data = false) ∧
    (countOcc policyContext.data polB0.data = 1 ∧
      countOcc policyContext.data seg2.data = 0 ∧
      countOcc policyContext.data polB2.data = 0 ∧
      countOcc policyContext.data polB3.data = 0 ∧
      countOcc policyContext.data seg9.data = 0) :=
  ⟨⟨by decide, by decide, by decide, by decide⟩,
    ⟨by decide, by decide, by decide, by decide, by decide⟩⟩

set_option maxRecDepth 100000 in
theorem ml_pattern_pol_pieces :
    (hangingMatch mlContext.data polB0.data = false ∧
      hangingMatch mlContext.data seg2.data = false ∧
      hangingMatch mlContext.data polB2.data = false ∧
      hangingMatch mlContext.data polB3.data = false) ∧
    (countOcc mlContext.data polB0.data = 0 ∧
      countOcc mlContext.data seg2.data = 0 ∧
      countOcc mlContext.data polB2.data = 0 ∧
      countOcc mlContext.data polB3.data = 0 ∧
      countOcc mlContext.data seg9.data = 0) :=
  ⟨⟨by decide, by decide, by decide, by decide⟩,
    ⟨by decide, by decide, by decide, by decide, by decide⟩⟩

set_option maxRecDepth 100000 in
theorem ml_pattern_ml_pieces :
    (hangingMatch mlContext.data mlB0.data = false ∧
      hangingMatch mlContext.data seg2.data = false ∧
      hangingMatch mlContext.data mlB2.data = false ∧
      hangingMatch mlContext.data mlB3.data = false) ∧
    (countOcc mlContext.data mlB0.data = 1 ∧
      countOcc mlContext.data seg2.data = 0 ∧
      countOcc mlContext.data mlB2.data = 0 ∧
      countOcc mlContext.data mlB3.data = 0 ∧
      countOcc mlContext.data seg9.data = 0) :=
  ⟨⟨by decide, by decide, by decide, by decide⟩,
    ⟨by decide, by decide, by decide, by decide, by decide⟩⟩

set_option maxRecDepth 100000 in
theorem pol_pattern_ml_pieces :
    (hangingMatch policyContext.data mlB0.data = false ∧
      hangingMatch policyContext.data seg2.data = false ∧
      hangingMatch policyContext.data mlB2.data = false ∧
      hangingMatch policyContext.data mlB3.data = false) ∧
    (countOcc policyContext.data mlB0.data = 0 ∧
      countOcc policyContext.data seg2.data = 0 ∧
      countOcc policyContext.data mlB2.data = 0 ∧
      countOcc policyContext.data mlB3.data = 0 ∧
      countOcc policyContext.data seg9.data = 0) :=
  ⟨⟨by decide, by decide, by decide, by decide⟩,
    ⟨by decide, by decide, by decide, by decide, by decide⟩⟩

theorem industry_no_nl : ∀ i ∈ industryOptions, ∀ c ∈ i.data, c ≠ '\n' := by decide

theorem style_no_nl : ∀ i ∈ styleOptions, ∀ c ∈ i.data, c ≠ '\n' := by decide

theorem c6_policy_counts (ind sty : String)
    (hind : ∀ c ∈ ind.data, c ≠ '\n') (hsty : ∀ c ∈ sty.data, c ≠ '\n') :
    countOcc policyContext.data (buildPrompt ⟨"AI Management & Policy", ind, sty⟩).data = 1 ∧
    countOcc mlContext.data (buildPrompt ⟨"AI Management & Policy", ind, sty⟩).data = 0 := by
  obtain ⟨⟨p0, p1, p2, p3⟩, ⟨c0, c1, c2, c3, c4⟩⟩ := pol_pattern_pol_pieces
  obtain ⟨⟨q0, q1, q2, q3⟩, ⟨d0, d1, d2, d3, d4⟩⟩ := ml_pattern_pol_pieces
  constructor
  · rw [promptPolicy_data ind sty,
      countOcc_prompt_pieces policyContext.data rfl polB0 polB2 polB3 ind sty
        hind hsty p0 p1 p2 p3, c0, c1, c2, c3, c4]
  · rw [promptPolicy_data ind sty,
      countOcc_prompt_pieces mlContext.data rfl polB0 polB2 polB3 ind sty
        hind hsty q0 q1 q2 q3, d0, d1, d2, d3, d4]

theorem c6_ml_counts (ind sty : String)
    (hind : ∀ c ∈ ind.data, c ≠ '\n') (hsty : ∀ c ∈ sty.data, c ≠ '\n') :
    countOcc mlContext.data (buildPrompt ⟨"AI and Machine Learning", ind, sty⟩).data = 1 ∧
    countOcc policyContext.data (buildPrompt ⟨"AI and Machine Learning", ind, sty⟩).data = 0 := by
  obtain ⟨⟨p0, p1, p2, p3⟩, ⟨c0, c1, c2, c3, c4⟩⟩ := ml_pattern_ml_pieces
  obtain ⟨⟨q0, q1, q2, q3⟩, ⟨d0, d1, d2, d3, d4⟩⟩ := pol_pattern_ml_pieces
  constructor
  · rw [promptMl_data ind sty,
      countOcc_prompt_pieces mlContext.data rfl mlB0 mlB2 mlB3 ind sty
        hind hsty p0 p1 p2 p3, c0, c1, c2, c3, c4]
  · rw [promptMl_data ind sty,
      countOcc_prompt_pieces policyContext.data rfl mlB0 mlB2 mlB3 ind sty
        hind hsty q0 q1 q2 q3, d0, d1, d2, d3, d4]

theorem buildPrompt_contains_industry (f : Filters) :
    strContains (buildPrompt f) f.industry := by
  refine ⟨seg0 ++ programContext f.track ++ seg1,
    seg2 ++ f.style ++ seg3 ++ centerNameOf f.track ++ seg4 ++ f.track ++ seg5 ++ f.industry
      ++ seg6 ++ centerNameOf f.track ++ seg7 ++ f.track ++ seg8 ++ f.industry ++ seg9, ?_⟩
  simp [buildPrompt, String.append_assoc]

theorem buildPrompt_contains_style (f : Filters) :
    strContains (buildPrompt f) f.style := by
  refine ⟨seg0 ++ programContext f.track ++ seg1 ++ f.industry ++ seg2,
    seg3 ++ centerNameOf f.track ++ seg4 ++ f.track ++ seg5 ++ f.industry
      ++ seg6 ++ centerNameOf f.track ++ seg7 ++ f.track ++ seg8 ++ f.industry ++ seg9, ?_⟩
  simp [buildPrompt, String.append_assoc]

/-- C6: for every valid filter record, the prompt handed to the completion
service contains the selected industry string and the selected role-function
string verbatim, and contains exactly one persona block — the one matching
the selected track (one occurrence of that track's block, zero occurrences
of the other track's block). -/
theorem c6_prompt (f : Filters) (hv : validFilters f) :
    strContains (buildPrompt f) f.industry ∧
    strContains (buildPrompt f) f.style ∧
    countOcc (programContext f.track).data (buildPrompt f).data = 1 ∧
    ∀ tr ∈ trackOptions, tr ≠ f.track →
      countOcc (programContext tr).data (buildPrompt f).data = 0 := by
  obtain ⟨tr, ind, sty⟩ := f
  obtain ⟨htr, hind, hsty⟩ := hv
  have hindnl : ∀ c ∈ ind.data, c ≠ '\n' := industry_no_nl ind hind
  have hstynl : ∀ c ∈ sty.data, c ≠ '\n' := style_no_nl sty hsty
  refine ⟨buildPrompt_contains_industry _, buildPrompt_contains_style _, ?_, ?_⟩
  · rcases show tr = "AI Management & Policy" ∨ tr = "AI and Machine Learning" by
      simpa [trackOptions] using htr with h | h
    · subst h
      rw [show programContext "AI Management & Policy" = policyContext from rfl]
      exact (c6_policy_counts ind sty hindnl hstynl).1
    · subst h
      rw [show programContext "AI and Machine Learning" = mlContext from rfl]
      exact (c6_ml_counts ind sty hindnl hstynl).1
  · intro tr2 htr2 hne2
    rcases show tr2 = "AI Management & Policy" ∨ tr2 = "AI and Machine Learning" by
      simpa [trackOptions] using htr2 with h2 | h2 <;>
    rcases show tr = "AI Management & Policy" ∨ tr = "AI and Machine Learning" by
      simpa [trackOptions] using htr with h | h
    · exact absurd (h2.trans h.symm) hne2
    · subst h; subst h2
      rw [show programContext "AI Management & Policy" = policyContext from rfl]
      exact (c6_ml_counts ind sty hindnl hstynl).2
    · subst h; subst h2
      rw [show programContext "AI and Machine Learning" = mlContext from rfl]
      exact (c6_policy_counts ind sty hindnl hstynl).2
    · exact absurd (h2.trans h.symm) hne2

set_option maxRecDepth 100000 in
/-- C6 witness at the policy track with concrete catalog selections. -/
theorem c6_witness :
    strContains (buildPrompt ⟨"AI Management & Policy", "Big Tech (FAANG)", "Product & Strategy"⟩)
      "Big Tech (FAANG)" ∧
    countOcc policyContext.data
      (buildPrompt ⟨"AI Management & Policy", "Big Tech (FAANG)", "Product & Strategy"⟩).data = 1 ∧
    countOcc mlContext.data
      (buildPrompt ⟨"AI Management & Policy", "Big Tech (FAANG)", "Product & Strategy"⟩).data = 0 := by
  have h := c6_prompt ⟨"AI Management & Policy", "Big Tech (FAANG)", "Product & Strategy"⟩
    ⟨by decide, by decide, by decide⟩
  exact ⟨h.1, h.2.2.1, h.2.2.2 "AI and Machine Learning" (by decide) (by decide)⟩
